import Mathlib

/-!
Shallow embedding of the penguin HTTP gateway core (Rust) in Lean 4.

Rust strings that are inspected structurally (URI paths, route patterns)
are embedded as `List Char`; strings that are only compared, concatenated
or measured (header names/values, bodies, cluster names) stay `String`.
Byte length and character length agree on the ASCII data used throughout.
-/

namespace Penguin

/-- Embedded Rust string used for URI paths and route patterns. -/
abbrev Str := List Char

/-- Ordered header list. `http::response::Builder::header` appends, so the
response header map is modelled as the ordered list of (name, value) pairs
in the order the builder receives them. -/
abbrev Headers := List (String × String)

/-- First-value lookup, the semantics of `http::HeaderMap::get`. -/
def getHeader (hs : Headers) (k : String) : Option String :=
  (hs.find? (fun p => p.1 == k)).map (fun p => p.2)

/-- All values stored under a name, in order. -/
def headerValues (hs : Headers) (k : String) : List String :=
  (hs.filter (fun p => p.1 == k)).map (fun p => p.2)

/-- A synthetic HTTP response as assembled by the response helper. -/
structure HttpResponse where
  status : Nat
  headers : Headers
  body : Option String
  deriving Repr, DecidableEq

/-- Embeds `send_response` (src/utils/mod.rs): Content-Length is the body
length, then the caller-provided headers are appended in order, then the
Content-Type (defaulted to text/plain) is appended.  The Rust `HashMap`
argument is modelled as its entry list. -/
def send_response (status : Nat) (content_type : Option String)
    (body : Option String) (headers : Option Headers) : HttpResponse :=
  let cl := (body.map String.length).getD 0
  { status := status
    headers := ("content-length", toString cl) ::
      (headers.getD [] ++ [("content-type", content_type.getD ("text/plain"))])
    body := body }

/-! ## Echo plugin (src/plugins/echo/mod.rs) -/

/-- The raw echo config record as deserialized from YAML. -/
structure EchoConfigRaw where
  body : String
  status_code : Option Nat
  headers : Option Headers
  deriving Repr, DecidableEq

/-- The constructed echo config. -/
structure EchoConfig where
  body : String
  status_code : Nat
  headers : Option Headers
  deriving Repr, DecidableEq

/-- Charwise lower-casing, the embedding of `str::to_lowercase` on the
ASCII header names used here. -/
def lowerStr (s : String) : String := ⟨s.data.map Char.toLower⟩

/-- Header keys are lower-cased at construction. -/
def lowerKeys (hs : Headers) : Headers :=
  hs.map (fun p => (lowerStr p.1, p.2))

/-- Embeds `create_echo_plugin`: lower-cases the header keys, defaults the
status code to 200, and rejects status codes outside `StatusCode::from_u16`
range (100..=999). YAML-level parse failures happen before this point. -/
def create_echo_plugin (raw : EchoConfigRaw) : Option EchoConfig :=
  let code := raw.status_code.getD 200
  if 100 ≤ code ∧ code < 1000 then
    some { body := raw.body, status_code := code,
           headers := raw.headers.map lowerKeys }
  else none

/-- Embeds `EchoPlugin::request_filter`: send the configured response and
return stop = true. -/
def EchoPlugin.request_filter (cfg : EchoConfig) : HttpResponse × Bool :=
  (send_response cfg.status_code none (some cfg.body) cfg.headers, true)

/-! ## Prefix normalization (src/builder/mod.rs) -/

/-- The matchit catch-all suffix appended to prefix routes. -/
def restPat : Str := "{*rest}".toList

/-- `str::replace` at the call site in `revise_prefix` has the single-char
pattern "*": every occurrence of the star is replaced, left to right, and
replacements are not re-scanned.  This specializes Rust's
`String::replace("*", rep)` to the one pattern the source passes. -/
def replaceStar (rep : Str) : Str → Str
  | [] => []
  | c :: rest => if c = '*' then rep ++ replaceStar rep rest
                 else c :: replaceStar rep rest

/-- Embeds `revise_prefix`: if the prefix ends with a star, run the
replacement, else append the catch-all suffix.  Its Rust doc comment reads
"if it suffix of *, remove * and append \x7b*rest\x7d, else append". -/
def revise_prefix (pfx : Str) : Str :=
  if ['*'].isSuffixOf pfx then replaceStar restPat pfx
  else pfx ++ restPat

/-! ## CMS rate limiter (src/plugins/cms_rate/mod.rs)

`pingora_limits::rate::Rate` is an external crate; it is modelled as an
exact per-key counter for the current window, with `observe(key, 1)`
adding one and returning the count observed in the window including this
event (the estimator's idealization; the claims speak of the observed
count, which is exactly what the code compares against `total`). -/

/-- Per-window rate state: observed count per URI path. -/
abbrev RateState := List (Str × Int)

/-- Count currently recorded for a key (0 when absent). -/
def lookupRate (s : RateState) (k : Str) : Int :=
  ((s.find? (fun e => e.1 == k)).map (fun e => e.2)).getD 0

/-- `Rate::observe(key, n)`: add `n` to the key's counter and return the
new observed count for the current window. -/
def observe (s : RateState) (k : Str) (n : Int) : Int × RateState :=
  match s with
  | [] => (n, [(k, n)])
  | (k0, c) :: rest =>
    if k0 == k then (c + n, (k0, c + n) :: rest)
    else
      let r := observe rest k n
      (r.1, (k0, c) :: r.2)

/-- Result of one cms_rate `request_filter` call. -/
structure CmsOutcome where
  stop : Bool
  response : Option HttpResponse
  state : RateState

/-- Embeds `PerRoutePlugin::request_filter` for cms_rate: observe 1 event
for the request path; if the new count exceeds `total`, send 429 and stop,
else continue. -/
def cms_request_filter (total : Int) (s : RateState) (path : Str) : CmsOutcome :=
  let r := observe s path 1
  if r.1 > total then
    { stop := true
      response := some (send_response 429 none none none)
      state := r.2 }
  else
    { stop := false, response := none, state := r.2 }

/-- One more request for the same path: update the window state and
record the (stop, response status) pair. -/
def cmsStep (total : Int) (path : Str)
    (prev : RateState × List (Bool × Option Nat)) :
    RateState × List (Bool × Option Nat) :=
  let o := cms_request_filter total prev.1 path
  (o.state, prev.2 ++ [(o.stop, o.response.map (fun r => r.status))])

/-- Run `n` back-to-back requests for the same path inside one window,
starting from the empty window, recording (stop, response status) pairs. -/
def cmsSeq (total : Int) (path : Str) : Nat → RateState × List (Bool × Option Nat)
  | 0 => ([], [])
  | n + 1 => cmsStep total path (cmsSeq total path n)

/-! ## Route matcher (src/proxy/process.rs, MatchEntry)

The `matchit::Router` dependency is modelled for the pattern fragment the
builder produces: literal paths (exact routes) and paths ending in the
catch-all suffix (normalized prefix routes).  `at()` prefers a static
(literal) match over catch-all matches; among matching catch-alls the most
specific (longest) pattern wins; a catch-all consumes a non-empty tail.
The regex crate is modelled by the capture function of a compiled regex:
given the URI path it yields the capture groups (group 0 first) or none. -/

/-- Abstraction of a compiled regex: its capture behavior on a path. -/
structure RegexModel where
  captures : Str → Option (List Str)

/-- Route parameters: path-parameter bindings in order for a path match,
capture groups including group 0 for a regex match. -/
structure RouteParams where
  params : List Str
  deriving Repr, DecidableEq

/-- A plugin as the engine sees it in the pre-request phase: its
`request_filter` decision (stop flag and possibly a written response) as a
function of the request path.  Later phases of the plugin trait are no-ops
by default and are tracked by the lifecycle driver as events only. -/
structure PluginModel where
  onRequest : Str → Bool × Option HttpResponse

/-- A pipeline: ordered plugins plus the target cluster name. -/
structure Pipeline where
  plugins : List PluginModel
  cluster : String

/-- Is this stored pattern a normalized prefix (catch-all) route? -/
def isCatchAll (pat : Str) : Bool := restPat.isSuffixOf pat

/-- The literal prefix in front of a catch-all suffix. -/
def patPre (pat : Str) : Str := pat.take (pat.length - restPat.length)

/-- Does a stored pattern match a request path (matchit semantics for the
modelled fragment)? -/
def patMatch (pat uri : Str) : Bool :=
  if isCatchAll pat then
    (patPre pat).isPrefixOf uri && decide ((patPre pat).length < uri.length)
  else pat == uri

/-- Most specific (longest) matching catch-all route, if any. -/
def bestCatchAll (router : List (Str × Pipeline)) (uri : Str) :
    Option (Str × Pipeline) :=
  router.foldl
    (fun acc e =>
      if isCatchAll e.1 && patMatch e.1 uri then
        match acc with
        | none => some e
        | some b => if e.1.length > b.1.length then some e else acc
      else acc)
    none

/-- Model of `Router::at`: static match first, else best catch-all, with
the bound parameter values in declaration order. -/
def routerAt (router : List (Str × Pipeline)) (uri : Str) :
    Option (RouteParams × Pipeline) :=
  match router.find? (fun e => !(isCatchAll e.1) && e.1 == uri) with
  | some e => some (⟨[]⟩, e.2)
  | none =>
    match bestCatchAll router uri with
    | some e => some (⟨[uri.drop (patPre e.1).length]⟩, e.2)
    | none => none

/-- The route matcher: the path router plus the insertion-ordered regex
list. -/
structure MatchEntry where
  non_reg_uri : List (Str × Pipeline)
  regex_uris : List (RegexModel × Pipeline)

/-- Embeds `MatchEntry::insert_route`: if the router already resolves the
new path (as a request path), return without inserting; else insert.
Insertion of the builder's pattern fragment never fails, so the
`InsertError` channel is not modelled. -/
def MatchEntry.insert_route (m : MatchEntry) (path : Str) (ppl : Pipeline) :
    MatchEntry :=
  if (routerAt m.non_reg_uri path).isSome then m
  else { m with non_reg_uri := m.non_reg_uri ++ [(path, ppl)] }

/-- Embeds `MatchEntry::add_regex_route`. -/
def MatchEntry.add_regex_route (m : MatchEntry) (re : RegexModel)
    (ppl : Pipeline) : MatchEntry :=
  { m with regex_uris := m.regex_uris ++ [(re, ppl)] }

/-- Scan the regex list in insertion order; first match wins, capture
groups (including group 0) become the route params. -/
def regexScan : List (RegexModel × Pipeline) → Str →
    Option (RouteParams × Pipeline)
  | [], _ => none
  | (re, ppl) :: rest, uri =>
    match re.captures uri with
    | some caps => some (⟨caps⟩, ppl)
    | none => regexScan rest uri

/-- Embeds `MatchEntry::match_request`: try the path router on the request
path, else scan the regex list, else none. -/
def MatchEntry.match_request (m : MatchEntry) (uri : Str) :
    Option (RouteParams × Pipeline) :=
  match routerAt m.non_reg_uri uri with
  | some r => some r
  | none => regexScan m.regex_uris uri

/-! ## Load balancer (src/core/lb.rs) and clusters (src/clusters/mod.rs) -/

/-- A backend endpoint. -/
structure Backend where
  ip : String
  port : Nat
  weight : Nat
  deriving Repr, DecidableEq

/-- The selection policy a pingora LoadBalancer is instantiated with. -/
inductive SelectionAlg
  | RoundRobin
  | LeastConn
  | Random
  deriving Repr, DecidableEq

/-- Model of `pingora::lb::LoadBalancer<S>` as used by the `impl<S> LB`
block: the type parameter S is abstracted into the `select` function
(key bytes and max-iterations in, backend out) plus the policy tag the
balancer was instantiated with. -/
structure LoadBalancerModel where
  alg : SelectionAlg
  select : List Nat → Nat → Option Backend

/-- Model of a request header, opaque to the load balancer. -/
abbrev RequestHeaderModel := String

/-- Embeds the `impl<S> LB for LoadBalancer<S>` method `select_backend`:
the request header argument is dropped and `self.select(b"", 256)` is
used. -/
def LB.select_backend (lb : LoadBalancerModel) (_header : RequestHeaderModel) :
    Option Backend :=
  lb.select [] 256

/-- Resolver kinds (src/config/def.rs). -/
inductive ResolverType
  | DNS
  | Static
  deriving Repr, DecidableEq

/-- Load-balancing policies declared in config (src/config/def.rs). -/
inductive LbPolicy
  | RoundRobin
  | LeastConn
  | Random
  | Unsupported
  deriving Repr, DecidableEq

/-- The YAML `config` value of a cluster, abstracted by what it parses
as: a DNS-shaped record, a static-endpoints record, or neither. -/
inductive ClusterConf
  | dnsConf (host : String) (port : Nat)
  | staticConf (endpoints : List (String × Nat))
  | malformed
  deriving Repr, DecidableEq

/-- A cluster config record (src/config/def.rs, fields the manager reads). -/
structure ClusterConfig where
  name : String
  resolver : ResolverType
  lb_policy : LbPolicy
  config : Option ClusterConf
  deriving Repr, DecidableEq

/-- Construction-time cluster errors (src/clusters/errors.rs kinds used by
the manager and discovery). -/
inductive ClusterErrorKind
  | unknownResolver
  | lackConfig
  | staticConfig
  | discoveryConfig
  | resolveIp
  deriving Repr, DecidableEq

/-- What `ClusterManager::new` records per cluster: which selection policy
the `LoadBalancer` was instantiated with and which discovery source backs
it.  The source instantiates `LoadBalancer::<Random>` in both arms. -/
structure BuiltLB where
  alg : SelectionAlg
  source : ClusterConf
  deriving Repr, DecidableEq

/-- Outcome of `ClusterManager::new`: a construction error, a panic (the
source unwraps `cfg.config` in the DNS arm), or the name → balancer map. -/
inductive NewOutcome
  | panic
  | err (e : ClusterErrorKind)
  | ok (clusters : List (String × BuiltLB))
  deriving Repr, DecidableEq

/-- `HashMap::insert`: replace an existing binding, else append. -/
def assocInsert (m : List (String × BuiltLB)) (k : String) (v : BuiltLB) :
    List (String × BuiltLB) :=
  match m with
  | [] => [(k, v)]
  | (k0, v0) :: rest =>
    if k0 == k then (k0, v) :: rest else (k0, v0) :: assocInsert rest k v

/-- Loop body of `ClusterManager::new` over the config list, carrying the
map built so far.  DNS arm: missing resolver is `UnknownResolver`, a
missing config is unwrapped (panic), a non-DNS-shaped config fails to
deserialize (`DiscoveryConfig`); otherwise a `LoadBalancer::<Random>` over
the DnsDiscovery is inserted.  Static arm: missing config is
`LackConfig`, a non-static-shaped config is `StaticConfig`; otherwise a
`LoadBalancer::<Random>` over the static endpoints is inserted. -/
def newAux (acc : List (String × BuiltLB)) (hasDns : Bool) :
    List ClusterConfig → NewOutcome
  | [] => .ok acc
  | cfg :: rest =>
    match cfg.resolver with
    | .DNS =>
      if !hasDns then .err .unknownResolver
      else
        match cfg.config with
        | none => .panic
        | some (.staticConf _) => .err .discoveryConfig
        | some .malformed => .err .discoveryConfig
        | some (.dnsConf host port) =>
          newAux
            (assocInsert acc cfg.name
              { alg := .Random, source := .dnsConf host port })
            hasDns rest
    | .Static =>
      match cfg.config with
      | none => .err .lackConfig
      | some (.dnsConf _ _) => .err .staticConfig
      | some .malformed => .err .staticConfig
      | some (.staticConf eps) =>
        newAux
          (assocInsert acc cfg.name
            { alg := .Random, source := .staticConf eps })
          hasDns rest

/-- Embeds `ClusterManager::new` (the resolver registry is summarized by
whether a DNS resolver is registered). -/
def ClusterManager.new (cfgs : List ClusterConfig) (hasDns : Bool) :
    NewOutcome :=
  newAux [] hasDns cfgs

/-- The selection algorithm the spec says the cluster's `lb_policy`
requests.  Stated from the spec's words ("wraps it in a LoadBalancer of
the requested policy"), for comparison with what the source builds. -/
def requestedAlg : LbPolicy → SelectionAlg
  | .RoundRobin => .RoundRobin
  | .LeastConn => .LeastConn
  | .Random => .Random
  | .Unsupported => .Random

/-! ## DNS discovery (src/clusters/discovery/mod.rs) -/

/-- Outcome of one `DnsDiscovery::discover` poll. -/
inductive DiscoverOutcome
  | panic
  | ok (backends : List Backend)
  deriving Repr, DecidableEq

/-- Embeds `DnsDiscovery::discover`, parameterized by the resolver's
`lookup_ip` result for the configured host: the source calls `.unwrap()`
on that result, so an `Err` panics; on `Ok` it emits one endpoint per IP
at the configured port with weight 1. -/
def DnsDiscovery.discover (port : Nat)
    (lookupResult : Except ClusterErrorKind (List String)) : DiscoverOutcome :=
  match lookupResult with
  | .error _ => .panic
  | .ok ips => .ok (ips.map (fun ip => { ip := ip, port := port, weight := 1 }))

/-! ## Proxy engine (src/proxy/process.rs) -/

/-- Per-request context (`ProxyCtx`), default-initialized per request. -/
structure ProxyCtx where
  plugins : List PluginModel
  cluster : Option String
  route_params : Option RouteParams

/-- The default context `ProxyCtx::default()`. -/
def ProxyCtx.default : ProxyCtx :=
  { plugins := [], cluster := none, route_params := none }

/-- The proxy engine state (`Proxy`): global plugins, matcher, and the
cluster manager's name → load-balancer map. -/
structure ProxyModel where
  plugins : List PluginModel
  matcher : MatchEntry
  cluster_manager : List (String × LoadBalancerModel)

/-- Observable invocations during one request's lifecycle. -/
inductive Event
  | globalReqFilter (i : Nat)
  | routeReqFilter (i : Nat)
  | reqBodyFilter (globalTier : Bool) (i : Nat)
  | upstreamReqFilter (globalTier : Bool) (i : Nat)
  | upstreamPeerSelect
  deriving Repr, DecidableEq

/-- Result of the engine's `request_filter` phase: the short-circuit flag,
the context after the phase, the filter invocations made, and the
synthetic responses written during the phase. -/
structure FilterResult where
  stop : Bool
  ctx : ProxyCtx
  events : List Event
  sent : List HttpResponse

/-- Run one tier of `request_filter` loops in order, starting at plugin
index `k`: each plugin is invoked; on stop = true the loop returns
immediately. -/
def runTier (mk : Nat → Event) (uri : Str) :
    List PluginModel → Nat → Bool × List Event × List HttpResponse
  | [], _ => (false, [], [])
  | p :: rest, k =>
    let r := p.onRequest uri
    if r.1 then (true, [mk k], r.2.toList)
    else
      let t := runTier mk uri rest (k + 1)
      (t.1, mk k :: t.2.1, r.2.toList ++ t.2.2)

/-- Index of the first plugin in a tier whose `request_filter` returns
stop = true for this request, if any. -/
def firstStopIdx (uri : Str) : List PluginModel → Option Nat
  | [] => none
  | p :: rest =>
    if (p.onRequest uri).1 then some 0
    else (firstStopIdx uri rest).map (fun i => i + 1)

/-- Embeds `Proxy::request_filter`: run global plugins in order with the
short-circuit rule; then match the request; on a match bind the
pipeline's cluster, plugins and route params into the context and run the
per-route plugins with the same rule; on a miss send 404 "not found" and
stop. -/
def ProxyModel.request_filter (p : ProxyModel) (uri : Str) : FilterResult :=
  let g := runTier Event.globalReqFilter uri p.plugins 0
  if g.1 then
    { stop := true, ctx := ProxyCtx.default, events := g.2.1, sent := g.2.2 }
  else
    match p.matcher.match_request uri with
    | some (route_params, ppl) =>
      let ctx : ProxyCtx :=
        { plugins := ppl.plugins, cluster := some ppl.cluster,
          route_params := some route_params }
      let r := runTier Event.routeReqFilter uri ppl.plugins 0
      { stop := r.1, ctx := ctx, events := g.2.1 ++ r.2.1,
        sent := g.2.2 ++ r.2.2 }
    | none =>
      { stop := true, ctx := ProxyCtx.default, events := g.2.1,
        sent := g.2.2 ++ [send_response 404 none (some ("not found")) none] }

/-- Per-request errors surfaced by `upstream_peer`. -/
inductive PeerError
  | noCluster
  | connectNoRoute
  | noBackend (cluster : String)
  deriving Repr, DecidableEq

/-- The peer descriptor handed to the transport. -/
structure HttpPeer where
  backend : Backend
  tls : Bool
  sni : String
  deriving Repr, DecidableEq

/-- `ClusterManager::get_cluster`: name lookup in the map. -/
def get_cluster (cm : List (String × LoadBalancerModel)) (name : String) :
    Option LoadBalancerModel :=
  (cm.find? (fun e => e.1 == name)).map (fun e => e.2)

/-- Embeds `Proxy::upstream_peer`: require a cluster name in the context
(else "no cluster"), resolve it in the manager (else `ConnectNoRoute`),
select a backend (else "no backend" annotated with the cluster), and
produce a peer with tls = false and SNI "a.b.c". -/
def ProxyModel.upstream_peer (p : ProxyModel) (ctx : ProxyCtx)
    (header : RequestHeaderModel) : Except PeerError HttpPeer :=
  match ctx.cluster with
  | none => .error .noCluster
  | some c =>
    match get_cluster p.cluster_manager c with
    | none => .error .connectNoRoute
    | some lb =>
      match LB.select_backend lb header with
      | none => .error (.noBackend c)
      | some b => .ok { backend := b, tls := false, sni := "a.b.c" }

/-- The filter invocations of one later phase across both tiers: global
plugins in order, then the matched pipeline's plugins in order. -/
def tierEvents (mk : Bool → Nat → Event) (nGlobal nRoute : Nat) : List Event :=
  (List.range nGlobal).map (mk true) ++ (List.range nRoute).map (mk false)

/-- Modelled from the spec: the pingora `ProxyHttp` phase driver (external
to this repository) as specified in §4.3/§4.5 — when `request_filter`
returns true the engine does not advance to later phases or to upstream;
otherwise each inbound body chunk passes `request_body_filter` across
both tiers, a peer is selected, and `upstream_request_filter` runs across
both tiers. -/
def processRequest (p : ProxyModel) (uri : Str) (chunks : Nat) : List Event :=
  let fr := p.request_filter uri
  if fr.stop then fr.events
  else
    fr.events ++
      (List.replicate chunks
        (tierEvents Event.reqBodyFilter p.plugins.length
          fr.ctx.plugins.length)).flatten ++
      [Event.upstreamPeerSelect] ++
      tierEvents Event.upstreamReqFilter p.plugins.length
        fr.ctx.plugins.length

/-- Is this event an invocation the short-circuit rule must forbid
(a later-phase filter or the upstream peer selection)? -/
def isLaterPhaseEvent : Event → Bool
  | .reqBodyFilter _ _ => true
  | .upstreamReqFilter _ _ => true
  | .upstreamPeerSelect => true
  | _ => false

/-! ## Concrete fixtures for witnesses and counterexamples -/

/-- A plugin whose `request_filter` always continues. -/
def passPlugin : PluginModel := ⟨fun _ => (false, none)⟩

/-- A plugin whose `request_filter` always short-circuits. -/
def stopPlugin : PluginModel := ⟨fun _ => (true, none)⟩

/-- A plugin-free pipeline targeting cluster c1. -/
def pipeC1 : Pipeline := ⟨[], "c1"⟩

/-- A plugin-free pipeline targeting cluster c2. -/
def pipeC2 : Pipeline := ⟨[], "c2"⟩

/-- A pipeline whose only plugin short-circuits, targeting cluster c1. -/
def pipeStop : Pipeline := ⟨[stopPlugin], "c1"⟩

/-- A matcher holding the single normalized prefix route /api/. -/
def m6 : MatchEntry := ⟨[("/api/{*rest}".toList, pipeC1)], []⟩

/-- An echo config as written in the spec's boundary test. -/
def echoRawCfg : EchoConfigRaw :=
  { body := "hi", status_code := none,
    headers := some [("Content-Type", "application/json")] }

/-- A static cluster requesting the round_robin policy. -/
def rrClusterCfg : ClusterConfig :=
  { name := "web", resolver := .Static, lb_policy := .RoundRobin,
    config := some (.staticConf [("10.0.0.1", 80)]) }

/-- A backend endpoint fixture. -/
def backendW : Backend := { ip := "10.0.0.1", port := 80, weight := 1 }

/-- A load balancer that always selects `backendW`. -/
def lbW : LoadBalancerModel := ⟨.Random, fun _ _ => some backendW⟩

/-- A proxy with one always-stopping global plugin. -/
def proxyG : ProxyModel := ⟨[stopPlugin], ⟨[], []⟩, []⟩

/-- A proxy with one pass-through global plugin and one prefix route whose
pipeline plugin stops. -/
def proxyR : ProxyModel :=
  ⟨[passPlugin], ⟨[("/a/{*rest}".toList, pipeStop)], []⟩, []⟩

/-- A proxy with no global plugins, one exact route to cluster c1, and a
cluster manager resolving c1. -/
def proxy9 : ProxyModel :=
  ⟨[], ⟨[("/a".toList, pipeC1)], []⟩, [("c1", lbW)]⟩

/-- A regex model matching exactly /users/42/profile with one group. -/
def reW : RegexModel :=
  ⟨fun u => if u = "/users/42/profile".toList
            then some [u, "42".toList] else none⟩

/-- A matcher with one prefix route and one regex route. -/
def m2 : MatchEntry := ⟨[("/a/{*rest}".toList, pipeC1)], [(reW, pipeC2)]⟩

/-- A proxy around `m2` with no global plugins. -/
def proxy2 : ProxyModel := ⟨[], m2, []⟩

end Penguin

namespace Penguin

/-! ## Helper lemmas -/

/-- find? is the head of the filtered list. -/
theorem find?_eq_head?_filter (p : α → Bool) :
    ∀ l : List α, l.find? p = (l.filter p).head? := by
  intro l
  induction l with
  | nil => rfl
  | cons a as ih =>
    by_cases h : p a
    · simp [List.find?_cons, List.filter_cons, h]
    · simp only [List.find?_cons, List.filter_cons, h]
      simp only [Bool.false_eq_true, if_false, ih]

/-- First-value header lookup is the head of the value list. -/
theorem getHeader_eq_head? (hs : Headers) (k : String) :
    getHeader hs k = (headerValues hs k).head? := by
  unfold getHeader headerValues
  rw [find?_eq_head?_filter, List.head?_map]

/-- Splitting `headerValues` over an append. -/
theorem headerValues_append (a b : Headers) (k : String) :
    headerValues (a ++ b) k = headerValues a k ++ headerValues b k := by
  simp [headerValues, List.filter_append]

/-! ## C5 -/

/-- C5 (code bug evidence): `revise_prefix` replaces every star, not only
the trailing one.  On the input /a*b* the code yields
/a\x7b*rest\x7db\x7b*rest\x7d, while its own doc comment and the spec call
for replacing only the trailing star, which would yield
/a*b\x7b*rest\x7d; a star before the end is not left unchanged. -/
theorem revise_prefix_replaces_every_star :
    revise_prefix (String.toList ("/a*b*")) =
      String.toList ("/a{*rest}b{*rest}") ∧
    revise_prefix (String.toList ("/a*b*")) ≠
      String.toList ("/a*b{*rest}") ∧
    revise_prefix (String.toList ("/echo/")) =
      String.toList ("/echo/{*rest}") ∧
    revise_prefix (String.toList ("/x*")) = String.toList ("/x{*rest}") := by
  refine ⟨by decide, by decide, by decide, by decide⟩

/-! ## C8 -/

/-- C8 (code bug evidence): when the resolver's lookup fails,
`DnsDiscovery::discover` unwraps the error and panics instead of
propagating it to the caller; on success it emits one endpoint per IP at
the configured port with weight 1. -/
theorem dns_discover_panics_on_resolver_error :
    DnsDiscovery.discover 80 (Except.error ClusterErrorKind.resolveIp) =
      DiscoverOutcome.panic ∧
    DnsDiscovery.discover 80 (Except.ok ["10.0.0.1", "10.0.0.2"]) =
      DiscoverOutcome.ok
        [{ ip := "10.0.0.1", port := 80, weight := 1 },
         { ip := "10.0.0.2", port := 80, weight := 1 }] := by
  exact ⟨rfl, rfl⟩

/-! ## C10 -/

/-- C10: the `LB` implementation for every pingora LoadBalancer ignores
the request header: whatever the balancer state, any two headers select
the same backend, because selection always uses the fixed key and TTL
256. -/
theorem select_backend_ignores_header (lb : LoadBalancerModel)
    (h1 h2 : RequestHeaderModel) :
    LB.select_backend lb h1 = LB.select_backend lb h2 := rfl

/-! ## C3 -/

/-- C3 (counterexample): with a configured Content-Type of
application/json, the emitted response does not carry the configured
Content-Type alone — `send_response` appends the default text/plain after
the provided headers, so the header sequence carries both values. -/
theorem echo_content_type_counterexample :
    ¬ ((create_echo_plugin echoRawCfg).map
        (fun cfg =>
          headerValues (EchoPlugin.request_filter cfg).1.headers
            ("content-type")) =
      some ["application/json"]) ∧
    (create_echo_plugin echoRawCfg).map
        (fun cfg =>
          headerValues (EchoPlugin.request_filter cfg).1.headers
            ("content-type")) =
      some ["application/json", "text/plain"] := by
  refine ⟨by decide, by decide⟩

/-- C3 (amended): echo's `request_filter` sends the configured response
and returns stop = true, with the configured status, the body, and
Content-Length equal to the body length; when the (lower-cased) config
headers carry no content-type the emitted Content-Type is exactly the
default text/plain, and when they carry content-type v the response's
header sequence carries v and then text/plain, so a first-value lookup
yields the configured v. -/
theorem echo_request_filter_spec (cfg : EchoConfig) :
    (EchoPlugin.request_filter cfg).2 = true ∧
    (EchoPlugin.request_filter cfg).1.status = cfg.status_code ∧
    (EchoPlugin.request_filter cfg).1.body = some cfg.body ∧
    getHeader (EchoPlugin.request_filter cfg).1.headers ("content-length") =
      some (toString cfg.body.length) ∧
    (headerValues (cfg.headers.getD []) ("content-type") = [] →
      headerValues (EchoPlugin.request_filter cfg).1.headers
        ("content-type") = ["text/plain"]) ∧
    (∀ v, headerValues (cfg.headers.getD []) ("content-type") = [v] →
      headerValues (EchoPlugin.request_filter cfg).1.headers
        ("content-type") = [v, "text/plain"] ∧
      getHeader (EchoPlugin.request_filter cfg).1.headers
        ("content-type") = some v) := by
  unfold EchoPlugin.request_filter send_response
  refine ⟨rfl, rfl, rfl, rfl, ?_, ?_⟩
  · intro h
    simp only [headerValues, List.filter_cons, List.filter_append]
    simp only [headerValues] at h
    simp [h]
  · intro v h
    constructor
    · simp only [headerValues, List.filter_cons, List.filter_append]
      simp only [headerValues] at h
      simp [h]
    · rw [getHeader_eq_head?]
      simp only [headerValues, List.filter_cons, List.filter_append]
      simp only [headerValues] at h
      simp [h]

/-- C3 (witness): the amended statement evaluated on the spec's boundary
config, built through `create_echo_plugin`. -/
theorem echo_request_filter_spec_witness :
    headerValues
        (EchoPlugin.request_filter
          { body := "hi", status_code := 200,
            headers := some [("content-type", "application/json")] }).1.headers
        ("content-type") = ["application/json", "text/plain"] :=
  ((echo_request_filter_spec
      { body := "hi", status_code := 200,
        headers := some [("content-type", "application/json")] }).2.2.2.2.2
    ("application/json") (by decide)).1

/-! ## C7 -/

/-- `assocInsert` of a Random-policy balancer into a map of Random-policy
balancers yields a map of Random-policy balancers. -/
theorem assocInsert_alg (m : List (String × BuiltLB)) (k : String)
    (v : BuiltLB) (hm : ∀ e ∈ m, e.2.alg = SelectionAlg.Random)
    (hv : v.alg = SelectionAlg.Random) :
    ∀ e ∈ assocInsert m k v, e.2.alg = SelectionAlg.Random := by
  induction m with
  | nil =>
    intro e he
    simp only [assocInsert, List.mem_singleton] at he
    rw [he]; exact hv
  | cons hd tl ih =>
    intro e he
    obtain ⟨k0, v0⟩ := hd
    simp only [assocInsert] at he
    by_cases hk : (k0 == k) = true
    · rw [if_pos hk] at he
      rcases List.mem_cons.1 he with h | h
      · rw [h]; exact hv
      · exact hm e (List.mem_cons_of_mem _ h)
    · rw [if_neg hk] at he
      rcases List.mem_cons.1 he with h | h
      · rw [h]; exact hm (k0, v0) (List.mem_cons_self _ _)
      · exact ih (fun e h => hm e (List.mem_cons_of_mem _ h)) e h

/-- Invariant of the `ClusterManager::new` loop: every balancer inserted
uses the Random selection policy. -/
theorem newAux_alg_random :
    ∀ (cfgs : List ClusterConfig) (acc : List (String × BuiltLB))
      (hasDns : Bool) (m : List (String × BuiltLB)),
      (∀ e ∈ acc, e.2.alg = SelectionAlg.Random) →
      newAux acc hasDns cfgs = NewOutcome.ok m →
      ∀ e ∈ m, e.2.alg = SelectionAlg.Random := by
  intro cfgs
  induction cfgs with
  | nil =>
    intro acc hasDns m hacc h
    simp only [newAux, NewOutcome.ok.injEq] at h
    rw [← h]; exact hacc
  | cons cfg rest ih =>
    intro acc hasDns m hacc h
    simp only [newAux] at h
    cases hr : cfg.resolver with
    | DNS =>
      rw [hr] at h
      by_cases hd : hasDns
      · simp only [hd, Bool.not_true, Bool.false_eq_true, if_false] at h
        cases hc : cfg.config with
        | none => rw [hc] at h; exact absurd h (by simp)
        | some conf =>
          rw [hc] at h
          cases conf with
          | dnsConf host port =>
            exact ih _ _ _ (assocInsert_alg _ _ _ hacc rfl) h
          | staticConf eps => exact absurd h (by simp)
          | malformed => exact absurd h (by simp)
      · simp only [Bool.not_eq_true] at hd
        rw [hd] at h
        exact absurd h (by simp)
    | Static =>
      rw [hr] at h
      cases hc : cfg.config with
      | none => rw [hc] at h; exact absurd h (by simp)
      | some conf =>
        rw [hc] at h
        cases conf with
        | dnsConf host port => exact absurd h (by simp)
        | staticConf eps =>
          exact ih _ _ _ (assocInsert_alg _ _ _ hacc rfl) h
        | malformed => exact absurd h (by simp)

/-- C7 (counterexample): a cluster whose config requests the round_robin
policy is built with a Random-policy balancer — `ClusterManager::new`
never reads `lb_policy` and instantiates `LoadBalancer::<Random>` in both
arms. -/
theorem cluster_policy_counterexample :
    ClusterManager.new [rrClusterCfg] true =
      NewOutcome.ok
        [("web", { alg := SelectionAlg.Random,
                   source := ClusterConf.staticConf [("10.0.0.1", 80)] })] ∧
    SelectionAlg.Random ≠ requestedAlg rrClusterCfg.lb_policy := by
  refine ⟨by decide, by decide⟩

/-- C7 (amended): every cluster accepted by `ClusterManager::new` gets a
balancer with the Random selection policy, whatever its `lb_policy`
field requests. -/
theorem cluster_manager_always_random (cfgs : List ClusterConfig)
    (hasDns : Bool) (m : List (String × BuiltLB))
    (h : ClusterManager.new cfgs hasDns = NewOutcome.ok m) :
    ∀ e ∈ m, e.2.alg = SelectionAlg.Random :=
  newAux_alg_random cfgs [] hasDns m (by intro e he; cases he) h

/-- C7 (witness): the amended statement evaluated on the round_robin
cluster config. -/
theorem cluster_manager_always_random_witness :
    ({ alg := SelectionAlg.Random,
       source := ClusterConf.staticConf [("10.0.0.1", 80)] } : BuiltLB).alg =
      SelectionAlg.Random :=
  cluster_manager_always_random [rrClusterCfg] true
    [("web", { alg := SelectionAlg.Random,
               source := ClusterConf.staticConf [("10.0.0.1", 80)] })]
    (by decide)
    ("web", { alg := SelectionAlg.Random,
              source := ClusterConf.staticConf [("10.0.0.1", 80)] })
    (by simp)

/-! ## C4 -/

/-- `observe` returns the stored count plus the reported events. -/
theorem observe_fst (s : RateState) (k : Str) (n : Int) :
    (observe s k n).1 = lookupRate s k + n := by
  induction s with
  | nil => simp [observe, lookupRate]
  | cons hd tl ih =>
    obtain ⟨k0, c⟩ := hd
    by_cases hk : (k0 == k) = true
    · simp [observe, lookupRate, List.find?_cons, hk]
    · simp only [observe, hk, Bool.false_eq_true, if_false]
      rw [ih]
      simp [lookupRate, List.find?_cons, hk]

/-- The limiter records the window state returned by `observe` whether or
not it stops. -/
theorem cms_state (total : Int) (s : RateState) (path : Str) :
    (cms_request_filter total s path).state = (observe s path 1).2 := by
  simp only [cms_request_filter]
  split <;> rfl

/-- A window that has seen `n` requests for one path stores count `n` for
it (and nothing before the first request). -/
theorem cmsSeq_state (total : Int) (path : Str) :
    ∀ n : Nat, (cmsSeq total path n).1 =
      if n = 0 then [] else [(path, (n : Int))] := by
  intro n
  induction n with
  | zero => rfl
  | succ n ih =>
    simp only [cmsSeq, cmsStep, cms_state, ih]
    by_cases hn : n = 0
    · subst hn; simp [observe]
    · rw [if_neg hn, if_neg (Nat.succ_ne_zero n)]
      simp only [observe, beq_self_eq_true, if_pos]
      push_cast
      ring_nf

/-- C4: the rate limiter's `request_filter` observes one event for the
request path and stops with a 429 response exactly when the observed
count within the window exceeds `total`; with total = 1 the first request
in a window passes through and every further request for the same path in
that window is refused with 429. -/
theorem cms_rate_threshold :
    (∀ (total : Int) (s : RateState) (path : Str),
      ((cms_request_filter total s path).stop = true ↔
        lookupRate s path + 1 > total) ∧
      (cms_request_filter total s path).state = (observe s path 1).2 ∧
      ((cms_request_filter total s path).stop = true →
        (cms_request_filter total s path).response =
          some (send_response 429 none none none)) ∧
      ((cms_request_filter total s path).stop = false →
        (cms_request_filter total s path).response = none)) ∧
    (∀ (path : Str) (n : Nat),
      (cmsSeq 1 path (n + 1)).2 =
        (false, none) :: List.replicate n (true, some 429)) := by
  constructor
  · intro total s path
    have hobs : (observe s path 1).1 = lookupRate s path + 1 :=
      observe_fst s path 1
    by_cases hgt : lookupRate s path + 1 > total
    · refine ⟨by simp [cms_request_filter, hobs, hgt], ?_, ?_, ?_⟩
      · simp [cms_request_filter, hobs, hgt]
      · intro _; simp [cms_request_filter, hobs, hgt]
      · intro hfalse
        simp [cms_request_filter, hobs, hgt] at hfalse
    · refine ⟨by simp [cms_request_filter, hobs, hgt], ?_, ?_, ?_⟩
      · simp [cms_request_filter, hobs, hgt]
      · intro htrue
        simp [cms_request_filter, hobs, hgt] at htrue
      · intro _; simp [cms_request_filter, hobs, hgt]
  · intro path n
    induction n with
    | zero =>
      simp [cmsSeq, cmsStep, cms_request_filter, observe]
    | succ n ih =>
      show (cmsSeq 1 path (n + 1 + 1)).2 = _
      rw [cmsSeq]
      have hst : (cmsSeq 1 path (n + 1)).1 = [(path, ((n + 1 : Nat) : Int))] := by
        rw [cmsSeq_state 1 path (n + 1), if_neg (Nat.succ_ne_zero n)]
      simp only [cmsStep, hst, ih]
      have hgt : ((1 : Int) < ((n : Int) + 1) + 1) := by omega
      simp only [cms_request_filter, observe, beq_self_eq_true, if_pos,
        gt_iff_lt]
      push_cast
      rw [if_pos hgt]
      simp [List.replicate_succ', send_response]

/-- C4 (witness): in a window that already saw one request for /x, the
next request for /x is refused with a 429 response. -/
theorem cms_rate_threshold_witness :
    (cms_request_filter 1 [(String.toList ("/x"), 1)]
        (String.toList ("/x"))).response =
      some (send_response 429 none none none) := by
  have h := cms_rate_threshold.1 1 [(String.toList ("/x"), 1)]
    (String.toList ("/x"))
  exact h.2.2.1 (h.1.mpr (by decide))

/-! ## C6 -/

/-- A stored pattern always matches its own path string. -/
theorem patMatch_self (pat : Str) : patMatch pat pat = true := by
  unfold patMatch
  by_cases h : isCatchAll pat = true
  · rw [if_pos h]
    have hsuf : restPat <:+ pat := List.isSuffixOf_iff_suffix.1 h
    have hlen : restPat.length ≤ pat.length := hsuf.length_le
    have hrl : restPat.length = 7 := by decide
    have hpre : patPre pat <+: pat := List.take_prefix _ _
    have hplen : (patPre pat).length = pat.length - restPat.length := by
      unfold patPre
      simp [List.length_take]
    rw [Bool.and_eq_true]
    refine ⟨List.isPrefixOf_iff_prefix.2 hpre, ?_⟩
    simp only [decide_eq_true_eq, hplen]
    omega
  · rw [if_neg h]
    exact beq_self_eq_true pat

/-- The `bestCatchAll` fold never forgets that it found a candidate. -/
theorem bestCatchAll_foldl_isSome (uri : Str) :
    ∀ (l : List (Str × Pipeline)) (acc : Option (Str × Pipeline)),
      acc.isSome = true →
      (l.foldl
        (fun acc e =>
          if isCatchAll e.1 && patMatch e.1 uri then
            match acc with
            | none => some e
            | some b => if e.1.length > b.1.length then some e else acc
          else acc)
        acc).isSome = true := by
  intro l
  induction l with
  | nil => intro acc h; exact h
  | cons e rest ih =>
    intro acc h
    simp only [List.foldl_cons]
    apply ih
    by_cases hc : (isCatchAll e.1 && patMatch e.1 uri) = true
    · rw [if_pos hc]
      cases acc with
      | none => rfl
      | some b =>
        dsimp only
        split <;> rfl
    · rw [if_neg hc]; exact h

/-- If some stored catch-all route matches the path, `bestCatchAll` finds
one. -/
theorem bestCatchAll_isSome_of_mem (router : List (Str × Pipeline))
    (uri pat : Str) (ppl : Pipeline) (hmem : (pat, ppl) ∈ router)
    (hca : isCatchAll pat = true) (hm : patMatch pat uri = true) :
    (bestCatchAll router uri).isSome = true := by
  unfold bestCatchAll
  induction router with
  | nil => cases hmem
  | cons e rest ih =>
    simp only [List.foldl_cons]
    rcases List.mem_cons.1 hmem with he | he
    · apply bestCatchAll_foldl_isSome
      rw [← he]
      simp only [hca, hm, Bool.and_self, if_pos]
      rfl
    · by_cases hc : (isCatchAll e.1 && patMatch e.1 uri) = true
      · apply bestCatchAll_foldl_isSome
        rw [if_pos hc]
        rfl
      · rw [if_neg hc]
        exact ih he

/-- A path already present in the router is resolved by `routerAt`. -/
theorem routerAt_isSome_of_mem (router : List (Str × Pipeline))
    (path : Str) (ppl0 : Pipeline) (hmem : (path, ppl0) ∈ router) :
    (routerAt router path).isSome = true := by
  unfold routerAt
  cases hf : router.find? (fun e => !(isCatchAll e.1) && e.1 == path) with
  | some e => rfl
  | none =>
    by_cases hca : isCatchAll path = true
    · have hb := bestCatchAll_isSome_of_mem router path path ppl0 hmem hca
        (patMatch_self path)
      cases hbc : bestCatchAll router path with
      | some e => rfl
      | none => rw [hbc] at hb; cases hb
    · exfalso
      have : (router.find? (fun e => !(isCatchAll e.1) && e.1 == path)).isSome
          = true := by
        refine List.find?_isSome.2 ⟨(path, ppl0), hmem, ?_⟩
        simp only [Bool.and_eq_true, Bool.not_eq_true']
        exact ⟨by simpa using hca, beq_self_eq_true path⟩
      rw [hf] at this
      cases this

/-- C6 (counterexample): with the prefix route /api/ already inserted,
inserting the distinct exact path /api/users is a silent no-op — the
route is not registered (the router keeps a single entry) and requests
for /api/users still land on the first pipeline's cluster. -/
theorem insert_route_counterexample :
    (String.toList ("/api/users") ≠ String.toList ("/api/{*rest}")) ∧
    (m6.insert_route (String.toList ("/api/users")) pipeC2).non_reg_uri.length
      = 1 ∧
    ¬ ((m6.insert_route (String.toList ("/api/users")) pipeC2).non_reg_uri.length
      = 2) ∧
    (((m6.insert_route (String.toList ("/api/users")) pipeC2).match_request
        (String.toList ("/api/users"))).map (fun r => r.2.cluster)) =
      some ("c1") := by
  refine ⟨by decide, rfl, by decide, rfl⟩

/-- C6 (amended): `insert_route` is a silent no-op exactly when the
router already resolves the inserted path as a request URI — in
particular whenever the identical normalized path was inserted before
(first insertion wins) — and registers the path otherwise; a distinct
path that an existing route happens to match is therefore also silently
dropped. -/
theorem insert_route_noop_iff_matched (m : MatchEntry) (path : Str)
    (ppl : Pipeline) :
    ((routerAt m.non_reg_uri path).isSome = true →
      m.insert_route path ppl = m) ∧
    ((routerAt m.non_reg_uri path).isSome = false →
      (m.insert_route path ppl).non_reg_uri =
        m.non_reg_uri ++ [(path, ppl)]) ∧
    (∀ ppl0, (path, ppl0) ∈ m.non_reg_uri → m.insert_route path ppl = m) := by
  refine ⟨?_, ?_, ?_⟩
  · intro h
    unfold MatchEntry.insert_route
    rw [if_pos h]
  · intro h
    unfold MatchEntry.insert_route
    rw [if_neg (by simp [h])]
  · intro ppl0 hmem
    unfold MatchEntry.insert_route
    rw [if_pos (routerAt_isSome_of_mem m.non_reg_uri path ppl0 hmem)]

/-- C6 (witness): the amended statement evaluated on the fixture — the
duplicate insertion of the already-present path /api/\x7b*rest\x7d is a
no-op. -/
theorem insert_route_noop_iff_matched_witness :
    m6.insert_route (String.toList ("/api/{*rest}")) pipeC2 = m6 :=
  (insert_route_noop_iff_matched m6 (String.toList ("/api/{*rest}"))
      pipeC2).2.2 pipeC1 (by simp [m6])

/-! ## Shared engine lemmas -/

/-- Shifting a mapped range by one. -/
theorem range_map_shift {α : Type} (f : Nat → α) (k n : Nat) :
    (List.range (n + 1)).map (fun j => f (k + j)) =
      f k :: (List.range n).map (fun j => f (k + 1 + j)) := by
  rw [List.range_succ_eq_map, List.map_cons, List.map_map, Nat.add_zero]
  congr 1
  refine List.map_congr_left ?_
  intro a _
  show f (k + (a + 1)) = f (k + 1 + a)
  congr 1
  omega

/-- When the tier's first stopper is plugin `i`, the request-filter loop
returns true and invokes exactly the filters of plugins 0..i. -/
theorem runTier_stop (mk : Nat → Event) (uri : Str) :
    ∀ (ps : List PluginModel) (k i : Nat),
      firstStopIdx uri ps = some i →
      (runTier mk uri ps k).1 = true ∧
      (runTier mk uri ps k).2.1 =
        (List.range (i + 1)).map (fun j => mk (k + j)) := by
  intro ps
  induction ps with
  | nil => intro k i h; cases h
  | cons p rest ih =>
    intro k i h
    by_cases hp : (p.onRequest uri).1 = true
    · simp only [firstStopIdx, hp, if_true] at h
      obtain rfl : (0 : Nat) = i := Option.some.inj h
      refine ⟨by simp [runTier, hp], ?_⟩
      rw [show List.range 1 = [0] from rfl]
      simp [runTier, hp]
    · simp only [firstStopIdx, hp, Bool.false_eq_true, if_false] at h
      obtain ⟨i0, hi0, rfl⟩ := Option.map_eq_some'.1 h
      have hr := ih (k + 1) i0 hi0
      refine ⟨?_, ?_⟩
      · simp only [runTier, hp, Bool.false_eq_true, if_false]
        exact hr.1
      · simp only [runTier, hp, Bool.false_eq_true, if_false]
        rw [range_map_shift mk k (i0 + 1), hr.2]

/-- When no plugin of the tier stops, the loop returns false and invokes
every plugin's filter in order. -/
theorem runTier_noStop (mk : Nat → Event) (uri : Str) :
    ∀ (ps : List PluginModel) (k : Nat),
      firstStopIdx uri ps = none →
      (runTier mk uri ps k).1 = false ∧
      (runTier mk uri ps k).2.1 =
        (List.range ps.length).map (fun j => mk (k + j)) := by
  intro ps
  induction ps with
  | nil => intro k _; exact ⟨rfl, rfl⟩
  | cons p rest ih =>
    intro k h
    by_cases hp : (p.onRequest uri).1 = true
    · simp only [firstStopIdx, hp, if_true] at h
      cases h
    · simp only [firstStopIdx, hp, Bool.false_eq_true, if_false,
        Option.map_eq_none'] at h
      have hr := ih (k + 1) h
      refine ⟨?_, ?_⟩
      · simp only [runTier, hp, Bool.false_eq_true, if_false]
        exact hr.1
      · simp only [runTier, hp, Bool.false_eq_true, if_false,
          List.length_cons]
        rw [range_map_shift mk k rest.length, hr.2]

/-! ## C2 -/

/-- The regex scan agrees with the first list entry whose pattern
captures the path. -/
theorem regexScan_of_find? (uri : Str) :
    ∀ (l : List (RegexModel × Pipeline)) (re : RegexModel) (ppl : Pipeline),
      l.find? (fun e => (e.1.captures uri).isSome) = some (re, ppl) →
      ∃ caps, re.captures uri = some caps ∧
        regexScan l uri = some (⟨caps⟩, ppl) := by
  intro l
  induction l with
  | nil => intro re ppl h; cases h
  | cons e rest ih =>
    obtain ⟨r0, p0⟩ := e
    intro re ppl h
    rw [List.find?_cons] at h
    cases hc : r0.captures uri with
    | some caps =>
      simp only [hc, Option.isSome_some] at h
      obtain ⟨rfl, rfl⟩ := Prod.mk.injEq .. ▸ Option.some.inj h
      exact ⟨caps, hc, by simp only [regexScan, hc]⟩
    | none =>
      simp only [hc, Option.isSome_none] at h
      obtain ⟨caps, hcap, hscan⟩ := ih re ppl h
      exact ⟨caps, hcap, by simp only [regexScan, hc]; exact hscan⟩

/-- If no regex in the list captures the path, the scan misses. -/
theorem regexScan_none (uri : Str) :
    ∀ l : List (RegexModel × Pipeline),
      (∀ e ∈ l, e.1.captures uri = none) → regexScan l uri = none := by
  intro l
  induction l with
  | nil => intro _; rfl
  | cons e rest ih =>
    obtain ⟨r0, p0⟩ := e
    intro h
    have h0 : r0.captures uri = none := h (r0, p0) (List.mem_cons_self _ _)
    simp only [regexScan, h0]
    exact ih (fun e he => h e (List.mem_cons_of_mem _ he))

/-- C2: `match_request` returns the path-router result whenever the path
router resolves the URI; otherwise the first regex (in insertion order)
whose pattern captures the URI, with its capture groups as route params;
otherwise none — and on a miss (when no global plugin stopped first) the
engine stops, the last response written being 404 with body not found. -/
theorem match_request_two_tier (m : MatchEntry) (uri : Str) :
    (∀ r, routerAt m.non_reg_uri uri = some r →
      m.match_request uri = some r) ∧
    (routerAt m.non_reg_uri uri = none →
      ∀ re ppl,
        m.regex_uris.find? (fun e => (e.1.captures uri).isSome) =
          some (re, ppl) →
        ∃ caps, re.captures uri = some caps ∧
          m.match_request uri = some (⟨caps⟩, ppl)) ∧
    (routerAt m.non_reg_uri uri = none →
      (∀ e ∈ m.regex_uris, e.1.captures uri = none) →
      m.match_request uri = none) ∧
    (∀ p : ProxyModel, p.matcher = m →
      firstStopIdx uri p.plugins = none →
      m.match_request uri = none →
      (p.request_filter uri).stop = true ∧
      (p.request_filter uri).sent.getLast? =
        some (send_response 404 none (some ("not found")) none)) := by
  refine ⟨?_, ?_, ?_, ?_⟩
  · intro r h
    simp only [MatchEntry.match_request, h]
  · intro h re ppl hf
    obtain ⟨caps, hcap, hscan⟩ := regexScan_of_find? uri m.regex_uris re ppl hf
    exact ⟨caps, hcap, by simp only [MatchEntry.match_request, h]; exact hscan⟩
  · intro h hall
    simp only [MatchEntry.match_request, h]
    exact regexScan_none uri m.regex_uris hall
  · intro p hm hg hmiss
    subst hm
    have hrt := runTier_noStop Event.globalReqFilter uri p.plugins 0 hg
    constructor
    · simp only [ProxyModel.request_filter, hrt.1, Bool.false_eq_true,
        if_false, hmiss]
    · simp only [ProxyModel.request_filter, hrt.1, Bool.false_eq_true,
        if_false, hmiss]
      exact List.getLast?_concat _

/-- C2 (witness): on the two-route fixture, /a/x resolves through the
path router with rest parameter x, and /nope misses both tiers, the
engine stopping with a last-written 404 not found response. -/
theorem match_request_two_tier_witness :
    m2.match_request (String.toList ("/a/x")) =
      some (⟨[String.toList ("x")]⟩, pipeC1) ∧
    (proxy2.request_filter (String.toList ("/nope"))).stop = true ∧
    (proxy2.request_filter (String.toList ("/nope"))).sent.getLast? =
      some (send_response 404 none (some ("not found")) none) := by
  refine ⟨?_, ?_, ?_⟩
  · exact (match_request_two_tier m2 (String.toList ("/a/x"))).1
      (⟨[String.toList ("x")]⟩, pipeC1) rfl
  · exact ((match_request_two_tier m2 (String.toList ("/nope"))).2.2.2
      proxy2 rfl rfl rfl).1
  · exact ((match_request_two_tier m2 (String.toList ("/nope"))).2.2.2
      proxy2 rfl rfl rfl).2

/-! ## C1 -/

/-- C1: if a plugin's `request_filter` returns stop = true — the first
stopper being a global plugin, or a per-route plugin after a match — the
engine's `request_filter` returns true, and the request's lifecycle
invokes exactly the request filters up to and including the stopper: no
later plugin's `request_filter`, no `request_body_filter`, no
`upstream_request_filter`, and no upstream peer selection. -/
theorem request_filter_short_circuit (p : ProxyModel) (uri : Str)
    (chunks : Nat) :
    (∀ i, firstStopIdx uri p.plugins = some i →
      (p.request_filter uri).stop = true ∧
      processRequest p uri chunks =
        (List.range (i + 1)).map Event.globalReqFilter ∧
      (processRequest p uri chunks).all
        (fun e => !isLaterPhaseEvent e) = true) ∧
    (∀ i route_params ppl, firstStopIdx uri p.plugins = none →
      p.matcher.match_request uri = some (route_params, ppl) →
      firstStopIdx uri ppl.plugins = some i →
      (p.request_filter uri).stop = true ∧
      processRequest p uri chunks =
        (List.range p.plugins.length).map Event.globalReqFilter ++
          (List.range (i + 1)).map Event.routeReqFilter ∧
      (processRequest p uri chunks).all
        (fun e => !isLaterPhaseEvent e) = true) := by
  constructor
  · intro i h
    have hg := runTier_stop Event.globalReqFilter uri p.plugins 0 i h
    have hev : (runTier Event.globalReqFilter uri p.plugins 0).2.1 =
        (List.range (i + 1)).map Event.globalReqFilter := by
      rw [hg.2]
      exact List.map_congr_left (fun a _ => by rw [Nat.zero_add])
    have hstop : (p.request_filter uri).stop = true := by
      simp only [ProxyModel.request_filter, hg.1, if_true]
    have hproc : processRequest p uri chunks =
        (List.range (i + 1)).map Event.globalReqFilter := by
      simp only [processRequest, ProxyModel.request_filter, hg.1, if_true,
        hev]
    refine ⟨hstop, hproc, ?_⟩
    rw [hproc, List.all_eq_true]
    intro x hx
    obtain ⟨j, _, rfl⟩ := List.mem_map.1 hx
    rfl
  · intro i route_params ppl hg hm hr
    have hgr := runTier_noStop Event.globalReqFilter uri p.plugins 0 hg
    have hrr := runTier_stop Event.routeReqFilter uri ppl.plugins 0 i hr
    have hgev : (runTier Event.globalReqFilter uri p.plugins 0).2.1 =
        (List.range p.plugins.length).map Event.globalReqFilter := by
      rw [hgr.2]
      exact List.map_congr_left (fun a _ => by rw [Nat.zero_add])
    have hrev : (runTier Event.routeReqFilter uri ppl.plugins 0).2.1 =
        (List.range (i + 1)).map Event.routeReqFilter := by
      rw [hrr.2]
      exact List.map_congr_left (fun a _ => by rw [Nat.zero_add])
    have hstop : (p.request_filter uri).stop = true := by
      simp only [ProxyModel.request_filter, hgr.1, Bool.false_eq_true,
        if_false, hm]
      exact hrr.1
    have hproc : processRequest p uri chunks =
        (List.range p.plugins.length).map Event.globalReqFilter ++
          (List.range (i + 1)).map Event.routeReqFilter := by
      simp only [processRequest, ProxyModel.request_filter, hgr.1,
        Bool.false_eq_true, if_false, hm, hrr.1, if_true, hgev, hrev]
    refine ⟨hstop, hproc, ?_⟩
    rw [hproc, List.all_eq_true]
    intro x hx
    rcases List.mem_append.1 hx with hx | hx
    · obtain ⟨j, _, rfl⟩ := List.mem_map.1 hx
      rfl
    · obtain ⟨j, _, rfl⟩ := List.mem_map.1 hx
      rfl

/-- C1 (witness): on the stopping fixtures, the lifecycle trace is the
stopper's filter invocation alone (global case), respectively the
pass-through global filter followed by the stopping route filter, with
no later-phase invocation in either trace. -/
theorem request_filter_short_circuit_witness :
    (proxyG.request_filter (String.toList ("/x"))).stop = true ∧
    processRequest proxyG (String.toList ("/x")) 1 =
      [Event.globalReqFilter 0] ∧
    (proxyR.request_filter (String.toList ("/a/b"))).stop = true ∧
    processRequest proxyR (String.toList ("/a/b")) 1 =
      [Event.globalReqFilter 0, Event.routeReqFilter 0] := by
  have h1 := (request_filter_short_circuit proxyG
    (String.toList ("/x")) 1).1 0 rfl
  have h2 := (request_filter_short_circuit proxyR
    (String.toList ("/a/b")) 1).2 0 ⟨[String.toList ("b")]⟩ pipeStop
    rfl rfl rfl
  refine ⟨h1.1, ?_, h2.1, ?_⟩
  · rw [h1.2.1]; rfl
  · rw [h2.2.1]; rfl

/-! ## C9 -/

/-- C9: whenever the engine's `request_filter` returns Ok(false) — the
request proceeds to peer selection — the route matched and the context's
cluster was set to the matched pipeline's cluster name, so the
"no cluster" branch of `upstream_peer` is unreachable for that
request. -/
theorem cluster_set_on_continue (p : ProxyModel) (uri : Str)
    (h : (p.request_filter uri).stop = false) :
    ∃ route_params ppl,
      p.matcher.match_request uri = some (route_params, ppl) ∧
      (p.request_filter uri).ctx.cluster = some ppl.cluster ∧
      ∀ header, p.upstream_peer (p.request_filter uri).ctx header ≠
        Except.error PeerError.noCluster := by
  have hg1 : (runTier Event.globalReqFilter uri p.plugins 0).1 = false := by
    by_contra hc
    have hc' : (runTier Event.globalReqFilter uri p.plugins 0).1 = true := by
      revert hc
      cases (runTier Event.globalReqFilter uri p.plugins 0).1 <;> simp
    simp only [ProxyModel.request_filter, hc', if_true] at h
    cases h
  cases hm : p.matcher.match_request uri with
  | none =>
    simp only [ProxyModel.request_filter, hg1, Bool.false_eq_true, if_false,
      hm] at h
    cases h
  | some r =>
    obtain ⟨route_params, ppl⟩ := r
    refine ⟨route_params, ppl, rfl, ?_, ?_⟩
    · simp only [ProxyModel.request_filter, hg1, Bool.false_eq_true,
        if_false, hm]
    · intro header
      have hctx : (p.request_filter uri).ctx.cluster = some ppl.cluster := by
        simp only [ProxyModel.request_filter, hg1, Bool.false_eq_true,
          if_false, hm]
      unfold ProxyModel.upstream_peer
      rw [hctx]
      dsimp only
      cases hgc : get_cluster p.cluster_manager ppl.cluster with
      | none => simp
      | some lb =>
        dsimp only
        cases hsb : LB.select_backend lb header with
        | none => simp
        | some b => simp

/-- C9 (witness): on the fixture proxy the request for /a continues
(stop = false), the context's cluster is c1, and `upstream_peer` does not
hit the "no cluster" branch. -/
theorem cluster_set_on_continue_witness :
    (proxy9.request_filter (String.toList ("/a"))).ctx.cluster =
      some ("c1") ∧
    proxy9.upstream_peer (proxy9.request_filter (String.toList ("/a"))).ctx
      ("GET /a") ≠ Except.error PeerError.noCluster := by
  obtain ⟨rp, ppl, hm, hc, hnp⟩ :=
    cluster_set_on_continue proxy9 (String.toList ("/a")) rfl
  have he : some ((⟨[]⟩ : RouteParams), pipeC1) = some (rp, ppl) := by
    rw [← hm]; exact rfl
  have hppl : pipeC1 = ppl := congrArg Prod.snd (Option.some.inj he)
  refine ⟨?_, hnp ("GET /a")⟩
  rw [hc, ← hppl]
  exact rfl

end Penguin
